import Mathlib

/-!
Shallow embedding of `src/server.js`, a socket.io room-based karaoke queue
server, together with proofs of the specified properties.

The mutable module-level table `const rooms = {}` is modelled as a function
`Store : String → Option Room`; each socket event handler becomes a pure
function from the store (and the event payload) to the updated store paired
with the list of outbound emits it performs, in order.
-/

namespace KaraokeServer

/-- An `Item` / song object as produced by the search endpoint and stored in
room queues (`{ id, title, thumbnail, duration, author }`). -/
structure Song where
  id : String
  title : String
  thumbnail : String
  duration : String
  author : String
deriving DecidableEq, Repr

/-- A room record: `rooms[roomId] = { host: socket.id, queue: [], currentSong: null }`. -/
structure Room where
  host : String
  queue : List Song
  currentSong : Option Song
deriving DecidableEq, Repr

/-- The in-memory room table `const rooms = {}`, keyed by room id. -/
def Store : Type := String → Option Room

/-- The empty room table. -/
def emptyStore : Store := fun _ => none

/-- Assignment `rooms[roomId] = r` (also used to model in-place mutation of
the room object held at `roomId`). -/
def setRoom (st : Store) (roomId : String) (r : Room) : Store :=
  fun x => if x = roomId then some r else st x

/-- Outbound event payloads (the `emit` messages of the server). -/
inductive OutMsg where
  | roomCreated (roomId : String)
  | roomJoined (roomId : String) (queue : List Song) (currentSong : Option Song)
  | errorMsg (msg : String)
  | fullSync (queue : List Song) (currentSong : Option Song)
  | queueUpdated (queue : List Song)
  | playerState (isPlaying : Bool) (volume : Int) (currentTime : Int) (duration : Int)
  | playSong (song : Option Song)
  | forceSkip
  | togglePlay
  | setVolume (volume : Int)
deriving DecidableEq, Repr

/-- One outbound delivery instruction.
`toSender m` is `socket.emit(m)` (to the originating connection only);
`toAll t m` is `io.to(t).emit(m)` (every member of room `t`, sender included);
`toOthers t m` is `socket.to(t).emit(m)` (every member of room `t` except the
sender). In socket.io a socket id is itself a room containing just that
socket, so `toOthers hostId m` targets the host connection. -/
inductive Emit where
  | toSender (msg : OutMsg)
  | toAll (target : String) (msg : OutMsg)
  | toOthers (target : String) (msg : OutMsg)
deriving DecidableEq, Repr

/-- The socket.io delivery semantics: which socket ids receive an emit, given
the transport's membership table (`members t` = socket ids joined to room `t`)
and the id of the emitting socket. -/
def recipients (members : String → List String) (sender : String) : Emit → List String
  | .toSender _ => [sender]
  | .toAll t _ => members t
  | .toOthers t _ => (members t).filter (fun r => r ≠ sender)

/-- The message carried by an emit. -/
def Emit.msg : Emit → OutMsg
  | .toSender m => m
  | .toAll _ m => m
  | .toOthers _ m => m

/-- Whether an outbound message is a `queue-updated` event. -/
def OutMsg.isQueueUpdated : OutMsg → Bool
  | .queueUpdated _ => true
  | _ => false

/-! ### JavaScript `parseInt`

`remove-from-queue` and `play-specific` coerce the supplied index with
`parseInt(index)` before the range check. We model the decimal behaviour of
the builtin: skip leading whitespace, read an optional sign, then the longest
run of leading decimal digits; `none` stands for `NaN` (no leading digit).
(The hexadecimal `0x` prefix form of the builtin is not modelled; no input in
scope uses it.) Note that a JS number argument is first converted to its
decimal string, so `parseInt(1.9) = 1`. -/

/-- Decimal digit value of a character, if any. -/
def digitVal (c : Char) : Option Nat :=
  if '0' ≤ c ∧ c ≤ '9' then some (c.toNat - '0'.toNat) else none

/-- Accumulate the longest run of leading decimal digits; the accumulator is
`none` until the first digit has been seen (distinguishing `NaN` from `0`). -/
def parseDigits : List Char → Option Nat → Option Nat
  | [], acc => acc
  | c :: cs, acc =>
    match digitVal c with
    | some d => parseDigits cs (some ((acc.getD 0) * 10 + d))
    | none => acc

/-- Characters `parseInt` skips before the number. -/
def isJsSpace (c : Char) : Bool :=
  c = ' ' ∨ c = '\t' ∨ c = '\n' ∨ c = '\r'

/-- `parseInt(s)` (decimal), with `none` for `NaN`. -/
def jsParseInt (s : String) : Option Int :=
  match s.data.dropWhile isJsSpace with
  | '-' :: rest => (parseDigits rest none).map (fun n => -(n : Int))
  | '+' :: rest => (parseDigits rest none).map (fun n => (n : Int))
  | cs => (parseDigits cs none).map (fun n => (n : Int))

/-! ### Event handlers

Each `socket.on(...)` handler of `src/server.js`, as a pure function
`Store → payload → Store × List Emit`. -/

/-- `create-room`: the freshly generated 6-digit id is passed in as `newId`
(the generator draws it at random); the handler stores a new room hosted by
the sender and answers `room-created` to the sender only. -/
def createRoom (st : Store) (senderId : String) (newId : String) : Store × List Emit :=
  (setRoom st newId { host := senderId, queue := [], currentSong := none },
   [.toSender (.roomCreated newId)])

/-- `join-room(roomId)`: if the room exists, answer `room-joined` with the
room's queue and current song; otherwise answer `error: "Room not found"`. -/
def joinRoom (st : Store) (roomId : String) : Store × List Emit :=
  match st roomId with
  | some room => (st, [.toSender (.roomJoined roomId room.queue room.currentSong)])
  | none => (st, [.toSender (.errorMsg "Room not found")])

/-- `request-sync(roomId)`: answer `full-sync` to the sender if the room exists. -/
def requestSync (st : Store) (roomId : String) : Store × List Emit :=
  match st roomId with
  | some room => (st, [.toSender (.fullSync room.queue room.currentSong)])
  | none => (st, [])

/-- `add-to-queue({roomId, song})`: push the song to the tail of the queue and
broadcast `queue-updated` with the new queue to the whole room. -/
def addToQueue (st : Store) (roomId : String) (song : Song) : Store × List Emit :=
  match st roomId with
  | some room =>
    (setRoom st roomId { room with queue := room.queue ++ [song] },
     [.toAll roomId (.queueUpdated (room.queue ++ [song]))])
  | none => (st, [])

/-- `player-state({...})`: pure relay to the room, excluding the sender. -/
def playerState (st : Store) (roomId : String) (isPlaying : Bool)
    (volume currentTime duration : Int) : Store × List Emit :=
  match st roomId with
  | some _ => (st, [.toOthers roomId (.playerState isPlaying volume currentTime duration)])
  | none => (st, [])

/-- `request-next(roomId)`: if the queue is non-empty, shift its head into
`currentSong` and broadcast `play-song` then `queue-updated`; if the room
exists with an empty queue, set `currentSong` to `null` and broadcast only
`play-song(null)`. -/
def requestNext (st : Store) (roomId : String) : Store × List Emit :=
  match st roomId with
  | some room =>
    match room.queue with
    | s :: rest =>
      (setRoom st roomId { room with queue := rest, currentSong := some s },
       [.toAll roomId (.playSong (some s)), .toAll roomId (.queueUpdated rest)])
    | [] =>
      (setRoom st roomId { room with currentSong := none },
       [.toAll roomId (.playSong none)])
  | none => (st, [])

/-- `skip-song(roomId)`: `socket.to(rooms[roomId].host).emit('force-skip')`. -/
def skipSong (st : Store) (roomId : String) : Store × List Emit :=
  match st roomId with
  | some room => (st, [.toOthers room.host .forceSkip])
  | none => (st, [])

/-- `clear-queue(roomId)`: empty the queue and broadcast `queue-updated([])`. -/
def clearQueue (st : Store) (roomId : String) : Store × List Emit :=
  match st roomId with
  | some room =>
    (setRoom st roomId { room with queue := [] },
     [.toAll roomId (.queueUpdated [])])
  | none => (st, [])

/-- `remove-from-queue({roomId, index})`: `idx = parseInt(index)`; when the
room exists and `0 <= idx < queue.length`, `splice(idx, 1)` and broadcast the
new queue; otherwise do nothing (`NaN` fails both comparisons). -/
def removeFromQueue (st : Store) (roomId : String) (index : String) : Store × List Emit :=
  match st roomId, jsParseInt index with
  | some room, some idx =>
    if 0 ≤ idx ∧ idx < (room.queue.length : Int) then
      let q := room.queue.eraseIdx idx.toNat
      (setRoom st roomId { room with queue := q },
       [.toAll roomId (.queueUpdated q)])
    else (st, [])
  | some _, none => (st, [])
  | none, _ => (st, [])

/-- `play-specific({roomId, index})`: `idx = parseInt(index)`; when the room
exists and `0 <= idx < queue.length`, remove the song at `idx` from the queue
(`splice(idx, 1)[0]`), set it as `currentSong`, and broadcast `play-song`
then `queue-updated`; otherwise do nothing. (The inner `none` branch of the
in-range lookup is unreachable: the range check guarantees the element
exists.) -/
def playSpecific (st : Store) (roomId : String) (index : String) : Store × List Emit :=
  match st roomId, jsParseInt index with
  | some room, some idx =>
    if 0 ≤ idx ∧ idx < (room.queue.length : Int) then
      match room.queue.get? idx.toNat with
      | some song =>
        let q := room.queue.eraseIdx idx.toNat
        (setRoom st roomId { room with queue := q, currentSong := some song },
         [.toAll roomId (.playSong (some song)), .toAll roomId (.queueUpdated q)])
      | none => (st, [])
    else (st, [])
  | some _, none => (st, [])
  | none, _ => (st, [])

/-- `toggle-play(roomId)`: `socket.to(rooms[roomId].host).emit('toggle-play')`. -/
def togglePlay (st : Store) (roomId : String) : Store × List Emit :=
  match st roomId with
  | some room => (st, [.toOthers room.host .togglePlay])
  | none => (st, [])

/-- `set-volume({roomId, volume})`: `socket.to(rooms[roomId].host).emit('set-volume', volume)`. -/
def setVolume (st : Store) (roomId : String) (volume : Int) : Store × List Emit :=
  match st roomId with
  | some room => (st, [.toOthers room.host (.setVolume volume)])
  | none => (st, [])

/-! ### Lookup gateway: `GET /api/search` -/

/-- The fields of a provider video result that the handler reads
(`video.videoId`, `.title`, `.thumbnail`, `.timestamp`, `.author.name`). -/
structure Video where
  videoId : String
  title : String
  thumbnail : String
  timestamp : String
  authorName : String
deriving DecidableEq, Repr

/-- The field mapping `video => ({ id, title, thumbnail, duration, author })`. -/
def videoToSong (v : Video) : Song :=
  { id := v.videoId, title := v.title, thumbnail := v.thumbnail,
    duration := v.timestamp, author := v.authorName }

/-- An HTTP response of the search endpoint: `400`, `500`, or `200` with a
song list. -/
inductive SearchResponse where
  | badRequest (error : String)
  | serverError (error : String)
  | ok (songs : List Song)
deriving DecidableEq, Repr

/-- The query text sent to the provider:
`karaokeOnly ? query + " karaoke" : query`. -/
def searchQueryOf (query : String) (karaokeOnly : Bool) : String :=
  if karaokeOnly then query ++ " karaoke" else query

/-- The `GET /api/search` handler. `q` and `karaokeOnlyParam` are the raw
query parameters (absent or a string); the external `yts` call is the
`provider` argument, returning its video list or failing. Mirrors:
`karaokeOnly = req.query.karaokeOnly !== 'false'`; `!query` (absent or empty)
gives `400`; provider failure gives `500`; otherwise the first 15 videos are
mapped to songs. -/
def apiSearch (q : Option String) (karaokeOnlyParam : Option String)
    (provider : String → Except Unit (List Video)) : SearchResponse :=
  let karaokeOnly : Bool := karaokeOnlyParam ≠ some "false"
  match q with
  | none => .badRequest "Query is required"
  | some query =>
    if query = "" then .badRequest "Query is required"
    else
      match provider (searchQueryOf query karaokeOnly) with
      | .ok results => .ok ((results.take 15).map videoToSong)
      | .error _ => .serverError "Failed to search YouTube"

/-! ### Event traces

A closed union of the inbound socket events, and the induced transition on
the room store, for trace-level properties (FIFO order, the current-song
invariant). The sender id matters only to `create-room` (it becomes the
host); membership changes (`socket.join`) do not touch the store. -/

/-- One inbound socket event. For `create-room`, `newId` is the id the random
generator produced. -/
inductive Event where
  | createRoom (sender : String) (newId : String)
  | joinRoom (roomId : String)
  | requestSync (roomId : String)
  | addToQueue (roomId : String) (song : Song)
  | playerState (roomId : String) (isPlaying : Bool) (volume currentTime duration : Int)
  | requestNext (roomId : String)
  | skipSong (roomId : String)
  | clearQueue (roomId : String)
  | removeFromQueue (roomId : String) (index : String)
  | playSpecific (roomId : String) (index : String)
  | togglePlay (roomId : String)
  | setVolume (roomId : String) (volume : Int)
deriving DecidableEq, Repr

/-- Dispatch one inbound event to its handler. -/
def step (st : Store) : Event → Store × List Emit
  | .createRoom sender newId => createRoom st sender newId
  | .joinRoom roomId => joinRoom st roomId
  | .requestSync roomId => requestSync st roomId
  | .addToQueue roomId song => addToQueue st roomId song
  | .playerState roomId p v t d => playerState st roomId p v t d
  | .requestNext roomId => requestNext st roomId
  | .skipSong roomId => skipSong st roomId
  | .clearQueue roomId => clearQueue st roomId
  | .removeFromQueue roomId index => removeFromQueue st roomId index
  | .playSpecific roomId index => playSpecific st roomId index
  | .togglePlay roomId => togglePlay st roomId
  | .setVolume roomId volume => setVolume st roomId volume

/-- Run a sequence of events, keeping only the resulting store. -/
def runEvents (st : Store) : List Event → Store
  | [] => st
  | e :: es => runEvents (step st e).1 es

/-- Ghost history for the current-song invariant: the songs ever appended to
each room's queue. It grows exactly when `add-to-queue` finds its room. -/
def ghostStep (st : Store) (g : String → List Song) : Event → (String → List Song)
  | .addToQueue roomId song =>
    match st roomId with
    | some _ => fun x => if x = roomId then g x ++ [song] else g x
    | none => g
  | _ => g

/-- Run a sequence of events with the ghost history alongside. -/
def runGhost (st : Store) (g : String → List Song) : List Event → Store × (String → List Song)
  | [] => (st, g)
  | e :: es => runGhost (step st e).1 (ghostStep st g e) es

/-- Apply `add-to-queue` once per song, in order. -/
def runAdds (st : Store) (roomId : String) : List Song → Store
  | [] => st
  | song :: songs => runAdds (addToQueue st roomId song).1 roomId songs

/-- Apply `request-next` `n` times. -/
def runNexts (st : Store) (roomId : String) : Nat → Store
  | 0 => st
  | n + 1 => runNexts (requestNext st roomId).1 roomId n

/-! ### Basic lemmas -/

@[simp]
theorem setRoom_self (st : Store) (roomId : String) (r : Room) :
    setRoom st roomId r roomId = some r := by
  simp [setRoom]

theorem setRoom_other (st : Store) (roomId : String) (r : Room) (x : String)
    (h : x ≠ roomId) : setRoom st roomId r x = st x := by
  simp [setRoom, h]

theorem setRoom_lookup (st : Store) (roomId : String) (r : Room) (x : String) :
    setRoom st roomId r x = if x = roomId then some r else st x := rfl

/-! ### Sample data used by the witnesses -/

/-- A sample song. -/
def songA : Song := { id := "vidA", title := "A", thumbnail := "tA", duration := "3:01", author := "aA" }

/-- A sample song. -/
def songB : Song := { id := "vidB", title := "B", thumbnail := "tB", duration := "3:02", author := "aB" }

/-- A sample song. -/
def songC : Song := { id := "vidC", title := "C", thumbnail := "tC", duration := "3:03", author := "aC" }

/-- A room with an empty queue. -/
def roomEmpty : Room := { host := "host1", queue := [], currentSong := some songC }

/-- A room with a three-song queue. -/
def roomFull : Room := { host := "host2", queue := [songA, songB, songC], currentSong := none }

/-- A sample store holding `roomEmpty` at `"1"` and `roomFull` at `"2"`. -/
def sampleStore : Store := fun x =>
  if x = "1" then some roomEmpty else if x = "2" then some roomFull else none

/-! ### C2: `request-next` branches -/

/-- C2: on a room with an empty queue, `request-next` sets `currentSong` to
absent and emits exactly `play-song(null)` to the room — in particular no
`queue-updated` event; on a non-empty queue it emits `play-song(head)`
followed by `queue-updated` with the post-shift queue. -/
theorem requestNext_branches (st : Store) (roomId : String) (room : Room)
    (hroom : st roomId = some room) :
    (room.queue = [] →
      requestNext st roomId =
        (setRoom st roomId { room with currentSong := none },
         [.toAll roomId (.playSong none)]) ∧
      ∀ e ∈ (requestNext st roomId).2, e.msg.isQueueUpdated = false) ∧
    (∀ s rest, room.queue = s :: rest →
      requestNext st roomId =
        (setRoom st roomId { room with queue := rest, currentSong := some s },
         [.toAll roomId (.playSong (some s)),
          .toAll roomId (.queueUpdated rest)])) := by
  constructor
  · intro hq
    constructor
    · simp [requestNext, hroom, hq]
    · intro e he
      simp [requestNext, hroom, hq] at he
      simp [he, Emit.msg, OutMsg.isQueueUpdated]
  · intro s rest hq
    simp [requestNext, hroom, hq]

/-- Witness for C2 at a concrete store: both branches instantiated. -/
theorem requestNext_branches_witness :
    (requestNext sampleStore "1" =
      (setRoom sampleStore "1" { roomEmpty with currentSong := none },
       [.toAll "1" (.playSong none)]) ∧
     ∀ e ∈ (requestNext sampleStore "1").2, e.msg.isQueueUpdated = false) ∧
    requestNext sampleStore "2" =
      (setRoom sampleStore "2" { roomFull with queue := [songB, songC], currentSong := some songA },
       [.toAll "2" (.playSong (some songA)),
        .toAll "2" (.queueUpdated [songB, songC])]) := by
  refine ⟨(requestNext_branches sampleStore "1" roomEmpty (by decide)).1 (by decide), ?_⟩
  exact (requestNext_branches sampleStore "2" roomFull (by decide)).2 songA [songB, songC] (by decide)

/-! ### C3: out-of-range index is a silent no-op -/

/-- C3: when the supplied index denotes an integer outside `[0, len(queue))`,
both `remove-from-queue` and `play-specific` leave the store (hence the
room's queue and `currentSong`) unchanged and emit no event. -/
theorem outOfRange_noop (st : Store) (roomId : String) (room : Room) (s : String) (i : Int)
    (hroom : st roomId = some room)
    (hparse : jsParseInt s = some i)
    (hout : i < 0 ∨ (room.queue.length : Int) ≤ i) :
    removeFromQueue st roomId s = (st, []) ∧ playSpecific st roomId s = (st, []) := by
  have hcond : ¬ (0 ≤ i ∧ i < (room.queue.length : Int)) := by omega
  constructor
  · simp [removeFromQueue, hroom, hparse, hcond]
  · simp [playSpecific, hroom, hparse, hcond]

/-- Witness for C3: index `"5"` on the three-song queue of room `"2"`. -/
theorem outOfRange_noop_witness :
    removeFromQueue sampleStore "2" "5" = (sampleStore, []) ∧
    playSpecific sampleStore "2" "5" = (sampleStore, []) :=
  outOfRange_noop sampleStore "2" roomFull "5" 5 (by decide) (by decide) (by decide)

/-! ### C4: `clear-queue` empties the queue, leaves `currentSong` alone -/

/-- C4: on an existing room, `clear-queue` replaces the queue by `[]`, leaves
`currentSong` untouched, and broadcasts `queue-updated([])` to the room. -/
theorem clearQueue_spec (st : Store) (roomId : String) (room : Room)
    (hroom : st roomId = some room) :
    clearQueue st roomId =
      (setRoom st roomId { room with queue := [] },
       [.toAll roomId (.queueUpdated [])]) ∧
    ∃ r', (clearQueue st roomId).1 roomId = some r' ∧
      r'.queue = [] ∧ r'.currentSong = room.currentSong := by
  refine ⟨by simp [clearQueue, hroom], { room with queue := [] }, ?_, rfl, rfl⟩
  simp [clearQueue, hroom]

/-- Witness for C4 at room `"2"` of the sample store. -/
theorem clearQueue_spec_witness :
    clearQueue sampleStore "2" =
      (setRoom sampleStore "2" { roomFull with queue := [] },
       [.toAll "2" (.queueUpdated [])]) ∧
    ∃ r', (clearQueue sampleStore "2").1 "2" = some r' ∧
      r'.queue = [] ∧ r'.currentSong = roomFull.currentSong :=
  clearQueue_spec sampleStore "2" roomFull (by decide)

/-! ### C5: transport-control events reach the host only -/

/-- C5: on an existing room, `skip-song`, `toggle-play` and `set-volume`
each produce exactly one emit, targeted at the room's host connection id
with sender exclusion. Under the socket.io rule that a socket id names a
room containing exactly that socket (`hm`), the delivery set of such an emit
is exactly `[host]` when the sender is not the host and empty when it is: it
is never multicast to the full room, and the host's own emitting connection
never receives it. -/
theorem hostOnly_routing (st : Store) (roomId : String) (room : Room)
    (hroom : st roomId = some room)
    (members : String → List String) (sender : String) (vol : Int)
    (hm : members room.host = [room.host]) :
    (skipSong st roomId).2 = [Emit.toOthers room.host .forceSkip] ∧
    (togglePlay st roomId).2 = [Emit.toOthers room.host .togglePlay] ∧
    (setVolume st roomId vol).2 = [Emit.toOthers room.host (.setVolume vol)] ∧
    ∀ m : OutMsg,
      recipients members sender (Emit.toOthers room.host m) =
        if room.host = sender then [] else [room.host] := by
  refine ⟨by simp [skipSong, hroom], by simp [togglePlay, hroom],
    by simp [setVolume, hroom], ?_⟩
  intro m
  simp only [recipients, hm]
  by_cases h : room.host = sender
  · subst h
    simp
  · simp [h]

/-- Notional transport membership for the C5 witness: the host socket id
`"host2"` names a room containing exactly that socket. -/
def membersW : String → List String :=
  fun t => if t = "host2" then ["host2"] else []

/-- Witness for C5 on room `"2"` (host `"host2"`): the three emits, delivery
to the host for an outside sender `"x"`, and empty delivery when the host
itself is the sender. -/
theorem hostOnly_routing_witness :
    (skipSong sampleStore "2").2 = [Emit.toOthers "host2" OutMsg.forceSkip] ∧
    (togglePlay sampleStore "2").2 = [Emit.toOthers "host2" OutMsg.togglePlay] ∧
    (setVolume sampleStore "2" 7).2 = [Emit.toOthers "host2" (OutMsg.setVolume 7)] ∧
    recipients membersW "x" (Emit.toOthers "host2" OutMsg.forceSkip) = ["host2"] ∧
    recipients membersW "host2" (Emit.toOthers "host2" OutMsg.forceSkip) = [] := by
  have h1 := hostOnly_routing sampleStore "2" roomFull (by decide) membersW "x" 7 (by decide)
  have h2 := hostOnly_routing sampleStore "2" roomFull (by decide) membersW "host2" 7 (by decide)
  exact ⟨h1.1, h1.2.1, h1.2.2.1,
    (h1.2.2.2 OutMsg.forceSkip).trans (by decide),
    (h2.2.2.2 OutMsg.forceSkip).trans (by decide)⟩

/-! ### C6: `join-room` -/

/-- C6: joining a missing room answers exactly one `error: "Room not found"`
to the sender alone and leaves the store unchanged; joining an existing room
answers `room-joined` carrying the room id, queue and current song to the
sender alone, also without state change. -/
theorem joinRoom_spec (st : Store) (roomId : String)
    (members : String → List String) (sender : String) :
    (st roomId = none →
      joinRoom st roomId = (st, [.toSender (.errorMsg "Room not found")]) ∧
      recipients members sender (.toSender (.errorMsg "Room not found")) = [sender]) ∧
    (∀ room, st roomId = some room →
      joinRoom st roomId =
        (st, [.toSender (.roomJoined roomId room.queue room.currentSong)]) ∧
      recipients members sender
        (.toSender (.roomJoined roomId room.queue room.currentSong)) = [sender]) := by
  constructor
  · intro h
    exact ⟨by simp [joinRoom, h], rfl⟩
  · intro room h
    exact ⟨by simp [joinRoom, h], rfl⟩

/-- Witness for C6: the missing room id `"999999"` and the existing room
`"1"` of the sample store. -/
theorem joinRoom_spec_witness :
    (joinRoom sampleStore "999999" =
      (sampleStore, [.toSender (.errorMsg "Room not found")]) ∧
     recipients (fun _ => []) "s" (.toSender (.errorMsg "Room not found")) = ["s"]) ∧
    (joinRoom sampleStore "1" =
      (sampleStore, [.toSender (.roomJoined "1" roomEmpty.queue roomEmpty.currentSong)]) ∧
     recipients (fun _ => []) "s"
       (.toSender (.roomJoined "1" roomEmpty.queue roomEmpty.currentSong)) = ["s"]) :=
  ⟨(joinRoom_spec sampleStore "999999" (fun _ => []) "s").1 (by decide),
   (joinRoom_spec sampleStore "1" (fun _ => []) "s").2 roomEmpty (by decide)⟩

/-! ### C7: every handler checks room existence first -/

/-- C7: each of the ten handlers that take a room id
(`request-sync`, `add-to-queue`, `player-state`, `request-next`,
`skip-song`, `clear-queue`, `remove-from-queue`, `play-specific`,
`toggle-play`, `set-volume`), applied to a room id with no corresponding
room, leaves the whole store unchanged and emits nothing. The handlers are
total Lean functions, so no execution path throws. -/
theorem missingRoom_noop (st : Store) (roomId : String)
    (hroom : st roomId = none)
    (song : Song) (isPlaying : Bool) (v t d vol : Int) (index : String) :
    requestSync st roomId = (st, []) ∧
    addToQueue st roomId song = (st, []) ∧
    playerState st roomId isPlaying v t d = (st, []) ∧
    requestNext st roomId = (st, []) ∧
    skipSong st roomId = (st, []) ∧
    clearQueue st roomId = (st, []) ∧
    removeFromQueue st roomId index = (st, []) ∧
    playSpecific st roomId index = (st, []) ∧
    togglePlay st roomId = (st, []) ∧
    setVolume st roomId vol = (st, []) := by
  refine ⟨?_, ?_, ?_, ?_, ?_, ?_, ?_, ?_, ?_, ?_⟩ <;>
    cases hj : jsParseInt index <;>
      simp [requestSync, addToQueue, playerState, requestNext, skipSong,
        clearQueue, removeFromQueue, playSpecific, togglePlay, setVolume,
        hroom, hj]

/-- Witness for C7: the unknown room id `"424242"` on the sample store. -/
theorem missingRoom_noop_witness :
    requestSync sampleStore "424242" = (sampleStore, []) ∧
    addToQueue sampleStore "424242" songA = (sampleStore, []) ∧
    playerState sampleStore "424242" true 3 4 5 = (sampleStore, []) ∧
    requestNext sampleStore "424242" = (sampleStore, []) ∧
    skipSong sampleStore "424242" = (sampleStore, []) ∧
    clearQueue sampleStore "424242" = (sampleStore, []) ∧
    removeFromQueue sampleStore "424242" "0" = (sampleStore, []) ∧
    playSpecific sampleStore "424242" "0" = (sampleStore, []) ∧
    togglePlay sampleStore "424242" = (sampleStore, []) ∧
    setVolume sampleStore "424242" 9 = (sampleStore, []) :=
  missingRoom_noop sampleStore "424242" (by decide) songA true 3 4 5 9 "0"

/-! ### C1: FIFO dequeue order -/

theorem runAdds_lookup (roomId : String) (songs : List Song) :
    ∀ (st : Store) (room : Room), st roomId = some room →
      (runAdds st roomId songs) roomId = some { room with queue := room.queue ++ songs } := by
  induction songs with
  | nil =>
    intro st room h
    simpa [runAdds] using h
  | cons song songs ih =>
    intro st room h
    have h1 : (addToQueue st roomId song).1 roomId =
        some { room with queue := room.queue ++ [song] } := by
      simp [addToQueue, h]
    have h2 := ih _ _ h1
    simpa [runAdds, List.append_assoc] using h2

theorem runNexts_lookup (roomId : String) :
    ∀ (n : Nat) (st : Store) (host : String) (q : List Song) (c : Option Song)
      (_h : st roomId = some ⟨host, q, c⟩) (hn : n < q.length),
      (runNexts st roomId (n + 1)) roomId =
        some ⟨host, q.drop (n + 1), some (q.get ⟨n, hn⟩)⟩ := by
  intro n
  induction n with
  | zero =>
    intro st host q c h hn
    cases q with
    | nil => exact absurd hn (by simp)
    | cons s rest =>
      have h1 : (requestNext st roomId).1 roomId = some ⟨host, rest, some s⟩ := by
        simp [requestNext, h]
      simpa [runNexts] using h1
  | succ n ih =>
    intro st host q c h hn
    cases q with
    | nil => exact absurd hn (by simp)
    | cons s rest =>
      have h1 : (requestNext st roomId).1 roomId = some ⟨host, rest, some s⟩ := by
        simp [requestNext, h]
      have h2 := ih _ host rest (some s) h1 (Nat.lt_of_succ_lt_succ hn)
      simpa [runNexts] using h2

/-- C1: starting from a room with an empty queue, after appending `songs` in
order via `add-to-queue`, the `(n+1)`-st `request-next` (each of which finds
a non-empty queue, since `n < length songs`) sets `currentSong` to the
`(n+1)`-st appended song and leaves exactly the songs after it in the queue:
FIFO order. -/
theorem fifo_dequeue (st : Store) (roomId : String) (room : Room)
    (songs : List Song) (n : Nat)
    (hroom : st roomId = some room) (hq : room.queue = [])
    (hn : n < songs.length) :
    (runNexts (runAdds st roomId songs) roomId (n + 1)) roomId =
      some { host := room.host, queue := songs.drop (n + 1),
             currentSong := some (songs.get ⟨n, hn⟩) } := by
  have hadds := runAdds_lookup roomId songs st room hroom
  rw [hq] at hadds
  exact runNexts_lookup roomId n _ room.host songs room.currentSong (by simpa using hadds) hn

/-- Witness for C1: two songs added to the empty room `"1"`; the second
`request-next` plays `songB` and leaves the queue empty. -/
theorem fifo_dequeue_witness :
    (runNexts (runAdds sampleStore "1" [songA, songB]) "1" 2) "1" =
      some { host := "host1", queue := [], currentSong := some songB } :=
  fifo_dequeue sampleStore "1" roomEmpty [songA, songB] 1 (by decide) (by decide) (by decide)

/-! ### C8: the search endpoint -/

/-- A sample provider video. -/
def vidOne : Video :=
  { videoId := "w1", title := "T1", thumbnail := "th1", timestamp := "2:10", authorName := "au1" }

/-- C8: a missing `q` gives `400`; a provider failure gives the error status
`500`; a provider success gives the first 15 results, in provider order,
mapped to songs (hence at most 15 items); and the query text handed to the
provider carries the `" karaoke"` qualifier exactly when the `karaokeOnly`
parameter is not the string `"false"` (so by default). -/
theorem apiSearch_spec :
    (∀ k p, apiSearch none k p = .badRequest "Query is required") ∧
    (∀ q k p, q ≠ "" →
      p (searchQueryOf q (decide (k ≠ some "false"))) = .error () →
      apiSearch (some q) k p = .serverError "Failed to search YouTube") ∧
    (∀ q k p vids, q ≠ "" →
      p (searchQueryOf q (decide (k ≠ some "false"))) = .ok vids →
      apiSearch (some q) k p = .ok ((vids.take 15).map videoToSong) ∧
      ((vids.take 15).map videoToSong).length ≤ 15) ∧
    (∀ (q : String) (k : Option String),
      (searchQueryOf q (decide (k ≠ some "false")) = q ++ " karaoke" ↔ k ≠ some "false")) := by
  refine ⟨fun k p => rfl, ?_, ?_, ?_⟩
  · intro q k p hq hp
    simp only [ne_eq, decide_not] at hp
    simp [apiSearch, hq, hp]
  · intro q k p vids hq hp
    simp only [ne_eq, decide_not] at hp
    refine ⟨by simp [apiSearch, hq, hp], ?_⟩
    calc ((vids.take 15).map videoToSong).length = (vids.take 15).length := by simp
    _ ≤ 15 := by simp
  · intro q k
    by_cases hk : k = some "false"
    · subst hk
      constructor
      · intro h
        have h' : q = q ++ " karaoke" := by simpa [searchQueryOf] using h
        have hlen := congrArg String.length h'
        rw [String.length_append] at hlen
        have h8 : (" karaoke" : String).length = 8 := rfl
        omega
      · intro h
        exact absurd rfl h
    · simp [searchQueryOf, hk]

/-- Witness for C8: a provider that succeeds on the karaoke-qualified query
and one that fails. -/
theorem apiSearch_spec_witness :
    apiSearch none none (fun _ => .ok [vidOne]) = .badRequest "Query is required" ∧
    apiSearch (some "abba") none (fun _ => .error ()) =
      .serverError "Failed to search YouTube" ∧
    apiSearch (some "abba") none (fun _ => .ok [vidOne]) =
      .ok [videoToSong vidOne] ∧
    (searchQueryOf "abba" (decide ((none : Option String) ≠ some "false")) =
      "abba" ++ " karaoke" ↔ (none : Option String) ≠ some "false") := by
  refine ⟨apiSearch_spec.1 none (fun _ => .ok [vidOne]), ?_, ?_, ?_⟩
  · exact apiSearch_spec.2.1 "abba" none (fun _ => .error ()) (by decide) rfl
  · exact (apiSearch_spec.2.2.1 "abba" none (fun _ => .ok [vidOne]) [vidOne] (by decide) rfl).1
  · exact apiSearch_spec.2.2.2 "abba" none

/-! ### C9: `currentSong` comes from the queue

The ghost history `(runGhost ...).2 id` collects exactly the songs that were
appended to room `id`'s queue by a successful `add-to-queue` — every element
of it was a member of the room's queue at the moment it was appended. The
invariant below says every room's queue, and its `currentSong` when present,
draw from that history: no operation ever fabricates a `currentSong` that
never passed through the queue. -/

/-- The inductive invariant: each room's queue and current song are contained
in the room's append history. -/
def Inv (st : Store) (g : String → List Song) : Prop :=
  ∀ id room, st id = some room →
    (∀ s ∈ room.queue, s ∈ g id) ∧ (∀ s, room.currentSong = some s → s ∈ g id)

theorem inv_step (st : Store) (g : String → List Song) (e : Event)
    (hinv : Inv st g) : Inv (step st e).1 (ghostStep st g e) := by
  cases e with
  | createRoom sender newId =>
    intro id room hid
    simp only [step, createRoom, ghostStep] at hid ⊢
    rw [setRoom_lookup] at hid
    by_cases hidn : id = newId
    · subst hidn
      rw [if_pos rfl] at hid
      obtain rfl := Option.some.inj hid
      exact ⟨by simp, by simp⟩
    · rw [if_neg hidn] at hid
      exact hinv id room hid
  | joinRoom roomId =>
    intro id room hid
    cases h : st roomId <;>
      (simp only [step, joinRoom, ghostStep, h] at hid ⊢; exact hinv id room hid)
  | requestSync roomId =>
    intro id room hid
    cases h : st roomId <;>
      (simp only [step, requestSync, ghostStep, h] at hid ⊢; exact hinv id room hid)
  | playerState roomId p v t d =>
    intro id room hid
    cases h : st roomId <;>
      (simp only [step, playerState, ghostStep, h] at hid ⊢; exact hinv id room hid)
  | skipSong roomId =>
    intro id room hid
    cases h : st roomId <;>
      (simp only [step, skipSong, ghostStep, h] at hid ⊢; exact hinv id room hid)
  | togglePlay roomId =>
    intro id room hid
    cases h : st roomId <;>
      (simp only [step, togglePlay, ghostStep, h] at hid ⊢; exact hinv id room hid)
  | setVolume roomId vol =>
    intro id room hid
    cases h : st roomId <;>
      (simp only [step, setVolume, ghostStep, h] at hid ⊢; exact hinv id room hid)
  | addToQueue roomId song =>
    intro id room hid
    cases hst : st roomId with
    | none =>
      simp only [step, addToQueue, ghostStep, hst] at hid ⊢
      exact hinv id room hid
    | some room0 =>
      simp only [step, addToQueue, ghostStep, hst] at hid ⊢
      rw [setRoom_lookup] at hid
      by_cases hidr : id = roomId
      · subst hidr
        rw [if_pos rfl] at hid
        obtain rfl := Option.some.inj hid
        have h0 := hinv _ _ hst
        constructor
        · intro s hs
          rw [if_pos rfl]
          rcases List.mem_append.mp hs with h | h
          · exact List.mem_append.mpr (Or.inl (h0.1 s h))
          · exact List.mem_append.mpr (Or.inr h)
        · intro s hs
          rw [if_pos rfl]
          exact List.mem_append.mpr (Or.inl (h0.2 s hs))
      · rw [if_neg hidr] at hid
        simp only [if_neg hidr]
        exact hinv id room hid
  | requestNext roomId =>
    intro id room hid
    cases hst : st roomId with
    | none =>
      simp only [step, requestNext, ghostStep, hst] at hid ⊢
      exact hinv id room hid
    | some room0 =>
      cases hq : room0.queue with
      | nil =>
        simp only [step, requestNext, ghostStep, hst, hq] at hid ⊢
        rw [setRoom_lookup] at hid
        by_cases hidr : id = roomId
        · subst hidr
          rw [if_pos rfl] at hid
          obtain rfl := Option.some.inj hid
          exact ⟨fun s hs => by simp at hs, fun s hs => by simp at hs⟩
        · rw [if_neg hidr] at hid
          exact hinv id room hid
      | cons s0 rest =>
        simp only [step, requestNext, ghostStep, hst, hq] at hid ⊢
        rw [setRoom_lookup] at hid
        by_cases hidr : id = roomId
        · subst hidr
          rw [if_pos rfl] at hid
          obtain rfl := Option.some.inj hid
          have h0 := hinv _ _ hst
          rw [hq] at h0
          constructor
          · intro s hs
            exact h0.1 s (List.mem_cons_of_mem s0 hs)
          · intro s hs
            obtain rfl := Option.some.inj hs
            exact h0.1 _ (List.mem_cons_self _ _)
        · rw [if_neg hidr] at hid
          exact hinv id room hid
  | clearQueue roomId =>
    intro id room hid
    cases hst : st roomId with
    | none =>
      simp only [step, clearQueue, ghostStep, hst] at hid ⊢
      exact hinv id room hid
    | some room0 =>
      simp only [step, clearQueue, ghostStep, hst] at hid ⊢
      rw [setRoom_lookup] at hid
      by_cases hidr : id = roomId
      · subst hidr
        rw [if_pos rfl] at hid
        obtain rfl := Option.some.inj hid
        have h0 := hinv _ _ hst
        exact ⟨fun s hs => by simp at hs, fun s hs => h0.2 s hs⟩
      · rw [if_neg hidr] at hid
        exact hinv id room hid
  | removeFromQueue roomId index =>
    intro id room hid
    cases hst : st roomId with
    | none =>
      cases hj : jsParseInt index <;>
        (simp only [step, removeFromQueue, ghostStep, hst, hj] at hid ⊢;
         exact hinv id room hid)
    | some room0 =>
      cases hj : jsParseInt index with
      | none =>
        simp only [step, removeFromQueue, ghostStep, hst, hj] at hid ⊢
        exact hinv id room hid
      | some idx =>
        simp only [step, removeFromQueue, ghostStep, hst, hj] at hid ⊢
        by_cases hrange : 0 ≤ idx ∧ idx < (room0.queue.length : Int)
        · rw [if_pos hrange] at hid
          have hid2 : setRoom st roomId
              { room0 with queue := room0.queue.eraseIdx idx.toNat } id = some room := hid
          rw [setRoom_lookup] at hid2
          by_cases hidr : id = roomId
          · subst hidr
            rw [if_pos rfl] at hid2
            obtain rfl := Option.some.inj hid2
            have h0 := hinv _ _ hst
            constructor
            · intro s hs
              exact h0.1 s (List.eraseIdx_subset _ _ hs)
            · intro s hs
              exact h0.2 s hs
          · rw [if_neg hidr] at hid2
            exact hinv id room hid2
        · rw [if_neg hrange] at hid
          exact hinv id room hid
  | playSpecific roomId index =>
    intro id room hid
    cases hst : st roomId with
    | none =>
      cases hj : jsParseInt index <;>
        (simp only [step, playSpecific, ghostStep, hst, hj] at hid ⊢;
         exact hinv id room hid)
    | some room0 =>
      cases hj : jsParseInt index with
      | none =>
        simp only [step, playSpecific, ghostStep, hst, hj] at hid ⊢
        exact hinv id room hid
      | some idx =>
        simp only [step, playSpecific, ghostStep, hst, hj] at hid ⊢
        by_cases hrange : 0 ≤ idx ∧ idx < (room0.queue.length : Int)
        · rw [if_pos hrange] at hid
          cases hget : room0.queue.get? idx.toNat with
          | none =>
            rw [hget] at hid
            exact hinv id room hid
          | some song =>
            rw [hget] at hid
            have hid2 : setRoom st roomId
                (Room.mk room0.host (room0.queue.eraseIdx idx.toNat) (some song)) id =
                some room := hid
            rw [setRoom_lookup] at hid2
            by_cases hidr : id = roomId
            · subst hidr
              rw [if_pos rfl] at hid2
              obtain rfl := Option.some.inj hid2
              have h0 := hinv _ _ hst
              constructor
              · intro s hs
                exact h0.1 s (List.eraseIdx_subset _ _ hs)
              · intro s hs
                obtain rfl := Option.some.inj hs
                exact h0.1 _ (List.get?_mem hget)
            · rw [if_neg hidr] at hid2
              exact hinv id room hid2
        · rw [if_neg hrange] at hid
          exact hinv id room hid

theorem runGhost_inv : ∀ (es : List Event) (st : Store) (g : String → List Song),
    Inv st g → Inv (runGhost st g es).1 (runGhost st g es).2 := by
  intro es
  induction es with
  | nil =>
    intro st g h
    simpa [runGhost] using h
  | cons e es ih =>
    intro st g h
    simp only [runGhost]
    exact ih _ _ (inv_step st g e h)

/-- C9: in any state reachable by a trace of events from the empty store,
every room's `currentSong` is absent or a song that was appended to (hence
present in) that room's queue at some earlier point, and the queue itself
only holds such songs. -/
theorem currentSong_from_queue (es : List Event) (id : String) (room : Room)
    (h : (runGhost emptyStore (fun _ => []) es).1 id = some room) :
    (room.currentSong = none ∨
      ∃ s, room.currentSong = some s ∧ s ∈ (runGhost emptyStore (fun _ => []) es).2 id) ∧
    ∀ s ∈ room.queue, s ∈ (runGhost emptyStore (fun _ => []) es).2 id := by
  have hinv0 : Inv emptyStore (fun _ => []) := by
    intro i r hr
    simp [emptyStore] at hr
  have h0 := runGhost_inv es emptyStore (fun _ => []) hinv0 id room h
  refine ⟨?_, h0.1⟩
  cases hc : room.currentSong with
  | none => exact Or.inl rfl
  | some s => exact Or.inr ⟨s, rfl, h0.2 s hc⟩

/-- A small demonstration trace: create room `"1"`, add a song, advance. -/
def demoTrace : List Event :=
  [.createRoom "h" "1", .addToQueue "1" songA, .requestNext "1"]

/-- Witness for C9 on `demoTrace`: the played `songA` is in the history. -/
theorem currentSong_from_queue_witness :
    ((Room.mk "h" [] (some songA)).currentSong = none ∨
      ∃ s, (Room.mk "h" [] (some songA)).currentSong = some s ∧
        s ∈ (runGhost emptyStore (fun _ => []) demoTrace).2 "1") ∧
    ∀ s ∈ (Room.mk "h" [] (some songA)).queue,
      s ∈ (runGhost emptyStore (fun _ => []) demoTrace).2 "1" :=
  currentSong_from_queue demoTrace "1" (Room.mk "h" [] (some songA)) (by decide)

/-! ### C10: index coercion through `parseInt` -/

/-- C10: the supplied index is coerced with `parseInt` before the range
check. Whenever the raw index string parses to an integer `t` with
`0 ≤ t < len(queue)` — so in particular for non-integer inputs such as
`"1.9"` or `"2abc"`, whose parse is their leading integer part — both
operations act on position `t` rather than no-op; and an index with no
leading numeric part parses to `NaN` and is always a silent no-op. -/
theorem parseInt_coercion (st : Store) (roomId : String) (room : Room)
    (hroom : st roomId = some room) (s : String) :
    (∀ t : Int, jsParseInt s = some t → 0 ≤ t → t < (room.queue.length : Int) →
      removeFromQueue st roomId s =
        (setRoom st roomId { room with queue := room.queue.eraseIdx t.toNat },
         [.toAll roomId (.queueUpdated (room.queue.eraseIdx t.toNat))]) ∧
      ∀ song, room.queue.get? t.toNat = some song →
        playSpecific st roomId s =
          (setRoom st roomId
            { room with queue := room.queue.eraseIdx t.toNat, currentSong := some song },
           [.toAll roomId (.playSong (some song)),
            .toAll roomId (.queueUpdated (room.queue.eraseIdx t.toNat))])) ∧
    (jsParseInt s = none →
      removeFromQueue st roomId s = (st, []) ∧ playSpecific st roomId s = (st, [])) := by
  constructor
  · intro t hparse h0 hlen
    have hrange : 0 ≤ t ∧ t < (room.queue.length : Int) := ⟨h0, hlen⟩
    constructor
    · simp [removeFromQueue, hroom, hparse, hrange]
    · intro song hget
      have hlt : t.toNat < room.queue.length := by omega
      have h1 : room.queue.get? t.toNat = some (room.queue[t.toNat]) := List.get?_eq_get hlt
      rw [hget] at h1
      have heq : room.queue[t.toNat] = song := (Option.some.inj h1).symm
      simp [playSpecific, hroom, hparse, hrange, hget, heq]
  · intro hparse
    exact ⟨by simp [removeFromQueue, hroom, hparse], by simp [playSpecific, hroom, hparse]⟩

/-- Witness for C10: on the three-song room `"2"`, the index `"1.9"` parses
to `1` and removes/plays position `1` (`songB`), while `"abc"` parses to
`NaN` and does nothing; `jsParseInt` is also evaluated on `"2abc"`. -/
theorem parseInt_coercion_witness :
    jsParseInt "1.9" = some 1 ∧ jsParseInt "2abc" = some 2 ∧ jsParseInt "abc" = none ∧
    removeFromQueue sampleStore "2" "1.9" =
      (setRoom sampleStore "2" { roomFull with queue := [songA, songC] },
       [.toAll "2" (.queueUpdated [songA, songC])]) ∧
    playSpecific sampleStore "2" "1.9" =
      (setRoom sampleStore "2" { roomFull with queue := [songA, songC], currentSong := some songB },
       [.toAll "2" (.playSong (some songB)), .toAll "2" (.queueUpdated [songA, songC])]) ∧
    removeFromQueue sampleStore "2" "abc" = (sampleStore, []) ∧
    playSpecific sampleStore "2" "abc" = (sampleStore, []) := by
  have hmain := parseInt_coercion sampleStore "2" roomFull (by decide) "1.9"
  have hnan := parseInt_coercion sampleStore "2" roomFull (by decide) "abc"
  have hact := hmain.1 1 (by decide) (by decide) (by decide)
  have hplay := hact.2 songB (by decide)
  have hnoop := hnan.2 (by decide)
  exact ⟨by decide, by decide, by decide, hact.1, hplay, hnoop.1, hnoop.2⟩

end KaraokeServer
